import Mathlib

/-!
Shallow embedding of the Hyab data-cleaner core (hyab_data_cleaner_v2.py and
hyab_data_cleaner_v3.py): the locale-numeric parsers, the sheet resolver, the
order-book extractor with currency conversion, and the analytics engine
(aging, concentration, sales intelligence, cohorts, revenue bridge).
Strings are modelled as Lean `String`/`List Char`; Python floats are idealised
as exact rationals `ℚ`; Python `None` becomes `Option`/an explicit `null`
constructor.
-/

namespace Hyab

/-! ### Character classes

`isPyDigit` models the regex class `\d`, `isPySpace` models `\s` (the ASCII
whitespace characters plus the non-breaking space U+00A0, which Python's
`str.strip` also removes), and `inAmountClass` models the character class
`[\d\s\xa0\.,]` of the amount regex in `clean_amount_with_currency`. -/

def isPyDigit (c : Char) : Bool := c.isDigit

def isPySpace (c : Char) : Bool :=
  c == ' ' || c == '\t' || c == '\n' || c == '\r' || c == '\x0b' || c == '\x0c' || c == '\xa0'

def inAmountClass (c : Char) : Bool :=
  isPyDigit c || isPySpace c || c == '.' || c == ','

/-- Python `str.strip()`: remove leading and trailing whitespace. -/
def stripPyWS (cs : List Char) : List Char :=
  ((cs.dropWhile isPySpace).reverse.dropWhile isPySpace).reverse

/-- Value of a digit string read in base 10. -/
def digitsVal (cs : List Char) : ℕ :=
  cs.foldl (fun n c => 10 * n + (c.toNat - 48)) 0

/-! ### Python `float()` on a string, idealised over `ℚ`

Models the decimal forms accepted by Python's `float` builtin:
optional surrounding whitespace, an optional sign, an integer part and/or a
fractional part, and an optional exponent.  (The special words `inf`/`nan`
and underscore digit-grouping are not modelled; no string built from the
cleaners' digit/separator pipelines can contain them.) -/

def pyExponent (cs : List Char) : Option ℤ :=
  match cs with
  | [] => some 0
  | e :: r =>
    if e == 'e' || e == 'E' then
      let p : ℤ × List Char :=
        match r with
        | '-' :: rr => (-1, rr)
        | '+' :: rr => (1, rr)
        | _ => (1, r)
      let ed := p.2.takeWhile isPyDigit
      if ed = [] || p.2.drop ed.length ≠ [] then none
      else some (p.1 * (digitsVal ed : ℤ))
    else none

/-- The optional leading sign: the sign factor and the remaining characters. -/
def pySign (t : List Char) : ℤ × List Char :=
  match t with
  | '-' :: r => (-1, r)
  | '+' :: r => (1, r)
  | _ => (1, t)

def pyFloatChars (cs : List Char) : Option ℚ :=
  let t := stripPyWS cs
  let su := pySign t
  let ip := su.2.takeWhile isPyDigit
  let u2 := su.2.drop ip.length
  let fp : List Char :=
    match u2 with
    | '.' :: r => r.takeWhile isPyDigit
    | _ => []
  let u3 : List Char :=
    match u2 with
    | '.' :: r => r.drop (r.takeWhile isPyDigit).length
    | _ => u2
  if ip = [] && fp = [] then none
  else
    match pyExponent u3 with
    | some e =>
        some (mkRat (su.1 * ((digitsVal ip * 10 ^ fp.length + digitsVal fp : ℕ) : ℤ) * 10 ^ e.toNat)
          (10 ^ fp.length * 10 ^ (-e).toNat))
    | none => none

/-! ### Separator disambiguation and the v2 numeric parsers -/

/-- The regex test `re.search(r',\d{2}$', s)`: the string ends with a comma
followed by exactly two digits. -/
def endsCommaTwoDigits (cs : List Char) : Bool :=
  match cs.reverse with
  | a :: b :: c :: _ => isPyDigit a && isPyDigit b && c == ','
  | _ => false

/-- Python `s.replace('\xa0', '').replace(' ', '')`. -/
def dropSpaceChars (cs : List Char) : List Char :=
  cs.filter (fun c => !(c == '\xa0' || c == ' '))

/-- Lines 282-285 of `clean_amount_with_currency` (v2): if the cleaned string
ends in `,\d{2}` drop dots and turn the comma into a dot, else drop commas. -/
def resolveSeparatorsAmount (cs : List Char) : List Char :=
  if endsCommaTwoDigits cs then
    (cs.filter (fun c => !(c == '.'))).map (fun c => if c == ',' then '.' else c)
  else
    cs.filter (fun c => !(c == ','))

/-- Lines 307-310 of `clean_number` (v2): the same separator handling,
duplicated in the source exactly as here. -/
def resolveSeparatorsNumber (cs : List Char) : List Char :=
  if endsCommaTwoDigits cs then
    (cs.filter (fun c => !(c == '.'))).map (fun c => if c == ',' then '.' else c)
  else
    cs.filter (fun c => !(c == ','))

/-- Lines 204-205 of `clean_num` (v3): the same separator handling again. -/
def resolveSeparatorsNumV3 (cs : List Char) : List Char :=
  if endsCommaTwoDigits cs then
    (cs.filter (fun c => !(c == '.'))).map (fun c => if c == ',' then '.' else c)
  else
    cs.filter (fun c => !(c == ','))

/-- The separator disambiguation rule as the specification words it (§4.1):
"if the text ends with exactly two digits after a comma (pattern `,\d{2}$`),
treat comma as decimal separator and strip dots as thousands separators;
otherwise treat comma as a thousands separator and strip it, leaving any dot
as the decimal point."  Stated from the spec, to be compared with the three
source-side copies above. -/
def separatorRuleSpec (cs : List Char) : List Char :=
  if endsCommaTwoDigits cs then
    (cs.filter (fun c => !(c == '.'))).map (fun c => if c == ',' then '.' else c)
  else
    cs.filter (fun c => !(c == ','))

/-- The regex alternative `(SEK|EUR|USD|GBP)?` with `re.IGNORECASE`, applied
at the point just after group 1 (the `\s*` in between always matches the
empty string because `\s` is contained in group 1's character class), and the
`.upper()` applied to a match. -/
def matchCurrency (cs : List Char) : Option String :=
  let t := (cs.take 3).map Char.toUpper
  if t = "SEK".data then some "SEK"
  else if t = "EUR".data then some "EUR"
  else if t = "USD".data then some "USD"
  else if t = "GBP".data then some "GBP"
  else none

/-- Group 1 of `re.match(r'([\d\s\xa0\.,]+)\s*(SEK|EUR|USD|GBP)?', raw)`:
the (greedy, never backtracking) longest prefix of characters in the class;
the match fails when this prefix is empty. -/
def amountGroup1 (cs : List Char) : List Char :=
  cs.takeWhile inAmountClass

/-- Function `clean_amount_with_currency` (v2, lines 269-292) on an already
`str()`-converted text value, returning the amount/currency pair when every
step succeeds. -/
def clean_amount_core (s : String) : Option (ℚ × String) :=
  let cs := stripPyWS s.data
  let g1 := amountGroup1 cs
  if g1 = [] then none
  else
    let currency := (matchCurrency (cs.drop g1.length)).getD "SEK"
    let cleaned := resolveSeparatorsAmount (dropSpaceChars g1)
    match pyFloatChars cleaned with
    | some q => some (q, currency)
    | none => none

/-- Wrapper for `clean_amount_with_currency` with the source `(None, None)` failure
shape; `none` input models Python `None`. -/
def clean_amount_with_currency (raw : Option String) : Option ℚ × Option String :=
  match raw with
  | none => (none, none)
  | some s =>
    match clean_amount_core s with
    | some qc => (some qc.1, some qc.2)
    | none => (none, none)

/-- Result of the plain-number cleaners: Python `None`, a float, or a string
passed through unchanged. -/
inductive NumResult
  | null : NumResult
  | num : ℚ → NumResult
  | str : String → NumResult
  deriving DecidableEq

/-- Function `clean_number` (v2, lines 295-315): `%`-suffixed strings pass through,
the no-value sentinels give `None`, then the separator rule and `float()`;
on a `float()` failure the stripped raw string passes through. -/
def clean_number (raw : Option String) : NumResult :=
  match raw with
  | none => NumResult.null
  | some s =>
    let t := stripPyWS s.data
    if t.getLast? = some '%' then NumResult.str (String.mk t)
    else if t = [] || t = "n/a".data || t = "None".data || t = "-".data then NumResult.null
    else
      match pyFloatChars (resolveSeparatorsNumber (dropSpaceChars t)) with
      | some q => NumResult.num q
      | none => NumResult.str (String.mk t)

/-- Function `clean_num` (v3, lines 199-207): as `clean_number` but with no `%` branch,
and a `float()` failure returns the original (unstripped) input. -/
def clean_num (raw : Option String) : NumResult :=
  match raw with
  | none => NumResult.null
  | some s0 =>
    let t := stripPyWS s0.data
    if t = [] || t = "n/a".data || t = "None".data || t = "-".data then NumResult.null
    else
      match pyFloatChars (resolveSeparatorsNumV3 (dropSpaceChars t)) with
      | some q => NumResult.num q
      | none => NumResult.str s0

/-! ### Sheet resolver (`find_sheet`, v2 lines 254-266 and v3 lines 182-186)

A Python dict is modelled as an association list where insertion replaces an
existing key in place and otherwise appends. -/

/-- Python `str.lower()` (ASCII). -/
def pyLower (s : String) : String := String.mk (s.data.map Char.toLower)

def dictInsert (d : List (String × String)) (k v : String) : List (String × String) :=
  if d.any (fun p => p.1 == k) then d.map (fun p => if p.1 == k then (k, v) else p)
  else d ++ [(k, v)]

/-- The comprehension `{name.lower(): name for name in wb.sheetnames}`;
a later sheet whose lowered name collides overwrites the earlier entry. -/
def lowerNameDict (names : List String) : List (String × String) :=
  names.foldl (fun d n => dictInsert d (pyLower n) n) []

def dictGet? (d : List (String × String)) (k : String) : Option String :=
  (d.find? (fun p => p.1 == k)).map (·.2)

/-- The `for name in possible_names` loop of `find_sheet`. -/
def findSheetLoop (d : List (String × String)) : List String → Option String
  | [] => none
  | c :: rest =>
    match dictGet? d (pyLower c) with
    | some n => some n
    | none => findSheetLoop d rest

/-- Function `find_sheet` (v2): first candidate matching case-insensitively, else the
single-sheet fallback, else `None`. -/
def find_sheet (sheetnames possible_names : List String) : Option String :=
  match findSheetLoop (lowerNameDict sheetnames) possible_names with
  | some n => some n
  | none => if sheetnames.length = 1 then sheetnames.head? else none

/-- Function `find_sheet` (v3 lines 182-186): same logic, duplicated in the source. -/
def find_sheet_v3 (sheetnames names : List String) : Option String :=
  match findSheetLoop (lowerNameDict sheetnames) names with
  | some n => some n
  | none => if sheetnames.length = 1 then sheetnames.head? else none

/-! ### Currency conversion and the order-book extractor -/

/-- Python `round(x, 2)`: round to two decimals, ties go
to even, idealised on `ℚ`. -/
def roundHalfEven (q : ℚ) : ℤ :=
  let f := ⌊q⌋
  if q - f < 1 / 2 then f
  else if q - f > 1 / 2 then f + 1
  else if f % 2 = 0 then f else f + 1

def round2 (q : ℚ) : ℚ := (roundHalfEven (q * 100) : ℚ) / 100

/-- Python `fx_rates.get(valuta, 1.0)`: rate lookup with default 1. -/
def fxGet (fx : List (String × ℚ)) (c : String) : ℚ :=
  ((fx.find? (fun p => p.1 == c)).map (·.2)).getD 1

/-- One raw order-book row, columns 1-6.  The date cell is `some` exactly
when the cell holds a genuine datetime (dates as integer day numbers); the
amount cell carries the cell's textual content, `none` for an empty cell. -/
structure OrderRow where
  ordernr : Option String
  orderdatum : Option ℤ
  kundnamn : Option String
  status : Option String
  fakt : Option String
  belopp_cell : Option String
  deriving DecidableEq

/-- The order record built by `parse_order_book` (v2 lines 349-378). -/
structure Order where
  ordernr : Option String
  orderdatum : Option ℤ
  kundnamn : Option String
  status : Option String
  fakt_status : String
  belopp : ℚ
  valuta : String
  belopp_sek : ℚ
  deriving DecidableEq

/-- Function `parse_order_book`: rows whose amount cell fails `clean_amount_with_currency`
are skipped; `belopp_sek = round(belopp * fx_rates.get(valuta, 1.0), 2)`. -/
def parse_order_book (fx : List (String × ℚ)) : List OrderRow → List Order
  | [] => []
  | r :: rest =>
    match clean_amount_with_currency r.belopp_cell with
    | (some belopp, some valuta) =>
      { ordernr := r.ordernr
        orderdatum := r.orderdatum
        kundnamn := r.kundnamn
        status := r.status
        fakt_status := r.fakt.getD ""
        belopp := belopp
        valuta := valuta
        belopp_sek := round2 (belopp * fxGet fx valuta) } :: parse_order_book fx rest
    | _ => parse_order_book fx rest

/-! ### Order aging (`analyze_order_aging`, v2 lines 681-702) -/

structure AgingAlert where
  ordernr : Option String
  kundnamn : Option String
  orderdatum : ℤ
  days_old : ℤ
  months_old : ℤ
  belopp_sek : ℚ
  deriving DecidableEq

/-- The alert dict appended for an order aged more than 90 days. -/
def mkAgingAlert (o : Order) (d today : ℤ) : AgingAlert :=
  { ordernr := o.ordernr
    kundnamn := o.kundnamn
    orderdatum := d
    days_old := today - d
    months_old := (today - d).fdiv 30
    belopp_sek := o.belopp_sek }

/-- Function `analyze_order_aging`: keep dated orders older than 90 days, sorted by
`days_old` descending (Python `sorted(..., reverse=True)`). -/
def analyze_order_aging (orders : List Order) (today : ℤ) : List AgingAlert :=
  (orders.filterMap (fun o =>
    match o.orderdatum with
    | none => none
    | some d => if today - d > 90 then some (mkAgingAlert o d today) else none)).mergeSort
    (fun a b => decide (b.days_old ≤ a.days_old))

/-! ### Customer concentration (`analyze_customer_concentration`, v2 lines 705-720) -/

/-- Python `defaultdict(float)` accumulation `customer_totals[key] += v`, as an
insertion-ordered association list. -/
def upsertAdd (m : List (Option String × ℚ)) (k : Option String) (v : ℚ) :
    List (Option String × ℚ) :=
  if m.any (fun p => p.1 == k) then m.map (fun p => if p.1 == k then (p.1, p.2 + v) else p)
  else m ++ [(k, v)]

def customerTotals (orders : List Order) : List (Option String × ℚ) :=
  orders.foldl (fun m o => upsertAdd m o.kundnamn o.belopp_sek) []

/-- Function `analyze_customer_concentration`: `(top_5 with percentages, top_3_pct,
top_1_pct)`; a zero grand total short-circuits to `([], 0, 0)`. -/
def analyze_customer_concentration (orders : List Order) :
    List (Option String × ℚ × ℚ) × ℚ × ℚ :=
  let m := customerTotals orders
  let total := (m.map (·.2)).sum
  if total = 0 then ([], 0, 0)
  else
    let sorted := m.mergeSort (fun a b => decide (b.2 ≤ a.2))
    let top5 := (sorted.take 5).map (fun p => (p.1, p.2, p.2 / total * 100))
    let top3 := ((sorted.take 3).map (·.2)).sum / total * 100
    let top1 :=
      match sorted with
      | [] => (0 : ℚ)
      | x :: _ => x.2 / total * 100
    (top5, top3, top1)

/-! ### Master-customer records and cohort analysis (v3) -/

/-- A customer row from `parse_master` (v3): the name, the LTM period map,
and the churn marker from the `bortfall` column. -/
structure CustomerV3 where
  kund : String
  ltm : List (String × ℚ)
  churned : Bool
  deriving DecidableEq

/-- Python `c['ltm'].get(key, 0)`. -/
def ltmGet (c : CustomerV3) (k : String) : ℚ :=
  ((c.ltm.find? (fun p => p.1 == k)).map (·.2)).getD 0

/-- Entry appended to the `churned` bucket by `analyze_cohorts`. -/
structure ChurnEntry where
  kund : String
  previous : ℚ
  current : ℚ
  change : ℚ
  deriving DecidableEq

/-- Entry appended to the `declining`/`growing` buckets. -/
structure MoveEntry where
  kund : String
  previous : ℚ
  current : ℚ
  change : ℚ
  pct : ℚ
  deriving DecidableEq

/-- Entry appended to the `new` bucket. -/
structure NewEntry where
  kund : String
  current : ℚ
  deriving DecidableEq

structure Cohorts where
  churned : List ChurnEntry
  declining : List MoveEntry
  growing : List MoveEntry
  new : List NewEntry
  deriving DecidableEq

def mkChurnEntry (c : CustomerV3) (curr prev : String) : ChurnEntry :=
  { kund := c.kund
    previous := ltmGet c prev
    current := ltmGet c curr
    change := ltmGet c curr - ltmGet c prev }

def mkMoveEntry (c : CustomerV3) (curr prev : String) : MoveEntry :=
  { kund := c.kund
    previous := ltmGet c prev
    current := ltmGet c curr
    change := ltmGet c curr - ltmGet c prev
    pct :=
      if ltmGet c prev > 0 then (ltmGet c curr - ltmGet c prev) / ltmGet c prev * 100 else 0 }

def mkNewEntry (c : CustomerV3) (curr : String) : NewEntry :=
  { kund := c.kund, current := ltmGet c curr }

/-- The five derived cohort labels. -/
inductive Cohort
  | churned
  | new
  | declining
  | growing
  | flat
  deriving DecidableEq

/-- The effective per-customer classification of the if/elif chain in
`analyze_cohorts` (v3 lines 293-300); the final `else` (no bucket) is the
flat/unclassified case. -/
def cohortOf (curr prev : String) (c : CustomerV3) : Cohort :=
  if c.churned = true ∨ (ltmGet c prev > 0 ∧ ltmGet c curr = 0) then Cohort.churned
  else if ltmGet c prev = 0 ∧ ltmGet c curr > 0 then Cohort.new
  else if ltmGet c curr - ltmGet c prev < 0 then Cohort.declining
  else if ltmGet c curr - ltmGet c prev > 0 then Cohort.growing
  else Cohort.flat

/-- The classifying loop of `analyze_cohorts`: each customer is appended to
the bucket its `cohortOf` label (the if/elif chain) selects, flat customers
to none. -/
def analyzeCohortsLoop (curr prev : String) : List CustomerV3 → Cohorts
  | [] => ⟨[], [], [], []⟩
  | c :: rest =>
    let r := analyzeCohortsLoop curr prev rest
    match cohortOf curr prev c with
    | Cohort.churned => { r with churned := mkChurnEntry c curr prev :: r.churned }
    | Cohort.new => { r with new := mkNewEntry c curr :: r.new }
    | Cohort.declining => { r with declining := mkMoveEntry c curr prev :: r.declining }
    | Cohort.growing => { r with growing := mkMoveEntry c curr prev :: r.growing }
    | Cohort.flat => r

/-- Function `analyze_cohorts` (v3 lines 287-306): classify every customer, then sort
churned by previous revenue descending, declining by change ascending,
growing by change descending, new by current revenue descending. -/
def analyze_cohorts (customers : List CustomerV3) (curr prev : String) : Cohorts :=
  let r := analyzeCohortsLoop curr prev customers
  { churned := r.churned.mergeSort (fun a b => decide (b.previous ≤ a.previous))
    declining := r.declining.mergeSort (fun a b => decide (a.change ≤ b.change))
    growing := r.growing.mergeSort (fun a b => decide (b.change ≤ a.change))
    new := r.new.mergeSort (fun a b => decide (b.current ≤ a.current)) }

/-- Composition of the `parse_master` sum `ltm_trend[l] = sum(c['ltm'].get(l, 0) for c in
data['customers'])` (v3 lines 281-283) composed with the lookup
`data['ltm_trend'].get(key, 0)` at v3 lines 322-323: for a label no customer
carries, every summand is 0, so the direct sum also yields the dict's
missing-key default 0. -/
def ltm_trend_total (customers : List CustomerV3) (k : String) : ℚ :=
  (customers.map (fun c => ltmGet c k)).sum

/-- The revenue-bridge numbers computed by `generate_html` (v3 lines 321-331). -/
structure BridgeStats where
  total_ltm : ℚ
  prev_ltm_val : ℚ
  yoy_chg : ℚ
  churn_loss : ℚ
  decline_loss : ℚ
  growth_gain : ℚ
  new_gain : ℚ

def generate_html_bridge (customers : List CustomerV3) (curr_ltm prev_ltm : String) :
    BridgeStats :=
  let cohorts := analyze_cohorts customers curr_ltm prev_ltm
  { total_ltm := ltm_trend_total customers curr_ltm
    prev_ltm_val := ltm_trend_total customers prev_ltm
    yoy_chg := ltm_trend_total customers curr_ltm - ltm_trend_total customers prev_ltm
    churn_loss := (cohorts.churned.map (·.previous)).sum
    decline_loss := |(cohorts.declining.map (·.change)).sum|
    growth_gain := (cohorts.growing.map (·.change)).sum
    new_gain := (cohorts.new.map (·.current)).sum }

/-! ### Sales intelligence (v2 lines 1023-1062) -/

/-- A customer row from `parse_sales_customers` (v2): `change` is set to
`ltm_now - ltm_prev` by the parser (v2 line 1017). -/
structure SICustomer where
  kund : String
  ltm_now : ℚ
  ltm_prev : ℚ
  change : ℚ
  deriving DecidableEq

structure SIResult where
  total_now : ℚ
  total_prev : ℚ
  total_change : ℚ
  pct_change : ℚ
  active : List SICustomer
  churned : List SICustomer
  declining : List SICustomer
  growing : List SICustomer
  new_customers : List SICustomer
  churn_revenue : ℚ
  decline_revenue : ℚ
  growth_revenue : ℚ
  new_revenue : ℚ
  top10_pct : ℚ
  top20_pct : ℚ
  top20 : List SICustomer

/-- Function `analyze_sales_intelligence`: the threshold ("material movement")
buckets; note `growing` is filtered by `change > 20000` alone. -/
def analyze_sales_intelligence (customers : List SICustomer) : SIResult :=
  let total_now := (customers.map (·.ltm_now)).sum
  let total_prev := (customers.map (·.ltm_prev)).sum
  let total_change := total_now - total_prev
  let active := customers.filter (fun c => decide (c.ltm_now > 0))
  let churned := customers.filter (fun c => decide (c.ltm_prev > 50000 ∧ c.ltm_now = 0))
  let declining := customers.filter
    (fun c => decide (c.ltm_prev > c.ltm_now ∧ c.ltm_now > 0 ∧ c.change < -20000))
  let growing := customers.filter (fun c => decide (c.change > 20000))
  let new_customers := customers.filter (fun c => decide (c.ltm_prev = 0 ∧ c.ltm_now > 10000))
  let sorted_cust := active.mergeSort (fun a b => decide (b.ltm_now ≤ a.ltm_now))
  let top10_rev := ((sorted_cust.take 10).map (·.ltm_now)).sum
  let top20_rev := ((sorted_cust.take 20).map (·.ltm_now)).sum
  { total_now := total_now
    total_prev := total_prev
    total_change := total_change
    pct_change := if total_prev > 0 then total_change / total_prev * 100 else 0
    active := active
    churned := churned.mergeSort (fun a b => decide (b.ltm_prev ≤ a.ltm_prev))
    declining := declining.mergeSort (fun a b => decide (a.change ≤ b.change))
    growing := growing.mergeSort (fun a b => decide (b.change ≤ a.change))
    new_customers := new_customers.mergeSort (fun a b => decide (b.ltm_now ≤ a.ltm_now))
    churn_revenue := (churned.map (·.ltm_prev)).sum
    decline_revenue := (declining.map (fun c => |c.change|)).sum
    growth_revenue := (growing.map (·.change)).sum
    new_revenue := (new_customers.map (·.ltm_now)).sum
    top10_pct := if total_now > 0 then top10_rev / total_now * 100 else 0
    top20_pct := if total_now > 0 then top20_rev / total_now * 100 else 0
    top20 := sorted_cust.take 20 }

/-! ### Concrete data used by the witness theorems below -/

def fxW6 : List (String × ℚ) := [("SEK", 1), ("EUR", mkRat 112 10)]

def rowW6 : OrderRow :=
  { ordernr := none, orderdatum := none, kundnamn := none, status := none,
    fakt := none, belopp_cell := some "100 EUR" }

def orderW6 : Order :=
  { ordernr := none, orderdatum := none, kundnamn := none, status := none,
    fakt_status := "", belopp := mkRat 100 1, valuta := "EUR",
    belopp_sek := round2 (mkRat 100 1 * fxGet fxW6 "EUR") }

def orderW91 : Order :=
  { ordernr := some "1", orderdatum := some 909, kundnamn := some "K", status := none,
    fakt_status := "", belopp := 5, valuta := "SEK", belopp_sek := 5 }

def orderW90 : Order :=
  { ordernr := some "2", orderdatum := some 910, kundnamn := some "K", status := none,
    fakt_status := "", belopp := 7, valuta := "SEK", belopp_sek := 7 }

def fxW10 : List (String × ℚ) := [("EUR", mkRat 112 10)]

def rowW10 : OrderRow :=
  { ordernr := none, orderdatum := none, kundnamn := none, status := none,
    fakt := none, belopp_cell := some "3 800,50" }

def orderW10 : Order :=
  { ordernr := none, orderdatum := none, kundnamn := none, status := none,
    fakt_status := "", belopp := mkRat 380050 100, valuta := "SEK",
    belopp_sek := round2 (mkRat 380050 100 * fxGet fxW10 "SEK") }

def orderW9 : Order :=
  { ordernr := none, orderdatum := none, kundnamn := some "K", status := none,
    fakt_status := "", belopp := 0, valuta := "SEK", belopp_sek := 0 }

/-! ### Claim C1: separator disambiguation rule -/

/-- C1: the numeric parsers apply the separator disambiguation rule — a
cleaned digit string ending in a comma followed by exactly two digits has
dots stripped and the comma turned into the decimal point, otherwise commas
are stripped and a dot kept — and `clean_amount_with_currency` and
`clean_number` apply the rule identically, so "3 800,50" parses to 3800.50
and "5,211.00" to 5211.00 in both. -/
theorem separator_rule_applied_identically :
    (∀ cs : List Char, resolveSeparatorsAmount cs = separatorRuleSpec cs) ∧
    (∀ cs : List Char, resolveSeparatorsNumber cs = separatorRuleSpec cs) ∧
    clean_amount_with_currency (some "3 800,50") = (some (3800.50 : ℚ), some "SEK") ∧
    clean_number (some "3 800,50") = NumResult.num (3800.50 : ℚ) ∧
    clean_amount_with_currency (some "5,211.00") = (some (5211.00 : ℚ), some "SEK") ∧
    clean_number (some "5,211.00") = NumResult.num (5211.00 : ℚ) := by
  refine ⟨fun _ => rfl, fun _ => rfl, ?_, ?_, ?_, ?_⟩
  · have h : clean_amount_with_currency (some "3 800,50") = (some (mkRat 380050 100), some "SEK") := by
      decide
    rw [h]
    norm_num [Rat.mkRat_eq_div]
  · have h : clean_number (some "3 800,50") = NumResult.num (mkRat 380050 100) := by decide
    rw [h, NumResult.num.injEq]
    norm_num [Rat.mkRat_eq_div]
  · have h : clean_amount_with_currency (some "5,211.00") = (some (mkRat 521100 100), some "SEK") := by
      decide
    rw [h]
    norm_num [Rat.mkRat_eq_div]
  · have h : clean_number (some "5,211.00") = NumResult.num (mkRat 521100 100) := by decide
    rw [h, NumResult.num.injEq]
    norm_num [Rat.mkRat_eq_div]

/-! ### Claim C4: failure modes of the numeric parsers -/

/-- C4 counterexample: on an input whose cleaned string does not parse as a
decimal number, the plain-number parsers do not return null — they return
the raw string unchanged. -/
theorem clean_number_unparseable_passthrough_cex :
    clean_number (some "abc") = NumResult.str "abc" ∧
    clean_num (some "abc") = NumResult.str "abc" ∧
    NumResult.str "abc" ≠ NumResult.null := by decide

/-- C4 (amended): on a missing, empty or sentinel ("n/a"/"None"/"-") input
every parser returns null (the amount parser the pair (null, null)); when the
cleaned string fails to parse as a decimal number the amount parser returns
(null, null), while the plain-number parsers pass the raw string through
instead of returning null. -/
theorem numeric_parser_failure_modes :
    clean_amount_with_currency none = (none, none) ∧
    clean_number none = NumResult.null ∧
    clean_num none = NumResult.null ∧
    (∀ s : String,
      stripPyWS s.data = [] ∨ stripPyWS s.data = "n/a".data ∨
          stripPyWS s.data = "None".data ∨ stripPyWS s.data = "-".data →
        clean_amount_with_currency (some s) = (none, none) ∧
          clean_number (some s) = NumResult.null ∧ clean_num (some s) = NumResult.null) ∧
    (∀ s : String,
      pyFloatChars (resolveSeparatorsAmount (dropSpaceChars (amountGroup1 (stripPyWS s.data)))) =
          none →
        clean_amount_with_currency (some s) = (none, none)) ∧
    (∀ s : String,
      (stripPyWS s.data).getLast? ≠ some '%' →
        ¬(stripPyWS s.data = [] ∨ stripPyWS s.data = "n/a".data ∨
            stripPyWS s.data = "None".data ∨ stripPyWS s.data = "-".data) →
        pyFloatChars (resolveSeparatorsNumber (dropSpaceChars (stripPyWS s.data))) = none →
        clean_number (some s) = NumResult.str (String.mk (stripPyWS s.data))) ∧
    (∀ s : String,
      ¬(stripPyWS s.data = [] ∨ stripPyWS s.data = "n/a".data ∨
          stripPyWS s.data = "None".data ∨ stripPyWS s.data = "-".data) →
        pyFloatChars (resolveSeparatorsNumV3 (dropSpaceChars (stripPyWS s.data))) = none →
        clean_num (some s) = NumResult.str s) := by
  refine ⟨rfl, rfl, rfl, ?_, ?_, ?_, ?_⟩
  · intro s h
    rcases h with h | h | h | h <;>
      · constructor
        · simp only [clean_amount_with_currency, clean_amount_core]
          rw [h]
          decide
        constructor
        · simp only [clean_number]
          rw [h]
          decide
        · simp only [clean_num]
          rw [h]
          simp
  · intro s hfl
    simp only [clean_amount_with_currency, clean_amount_core]
    by_cases hg : amountGroup1 (stripPyWS s.data) = []
    · simp [hg]
    · simp [hg, hfl]
  · intro s h1 h2 h3
    push_neg at h2
    simp only [clean_number]
    rw [if_neg h1,
      if_neg (by
        simp only [Bool.or_eq_true, decide_eq_true_eq, not_or]
        exact ⟨⟨⟨h2.1, h2.2.1⟩, h2.2.2.1⟩, h2.2.2.2⟩), h3]
  · intro s h2 h3
    push_neg at h2
    simp only [clean_num]
    rw [if_neg (by
        simp only [Bool.or_eq_true, decide_eq_true_eq, not_or]
        exact ⟨⟨⟨h2.1, h2.2.1⟩, h2.2.2.1⟩, h2.2.2.2⟩), h3]

/-- C4 witness: the sentinel " n/a " yields null from all three parsers; the
unparseable "xyz" yields (null, null) from the amount parser but passes
through the plain-number parsers as the string itself. -/
theorem numeric_parser_failure_modes_witness :
    (clean_amount_with_currency (some " n/a ") = (none, none) ∧
      clean_number (some " n/a ") = NumResult.null ∧
      clean_num (some " n/a ") = NumResult.null) ∧
    clean_amount_with_currency (some "xyz") = (none, none) ∧
    clean_number (some "xyz") = NumResult.str "xyz" ∧
    clean_num (some "xyz") = NumResult.str "xyz" := by
  refine ⟨numeric_parser_failure_modes.2.2.2.1 " n/a " (Or.inr (Or.inl (by decide))),
    numeric_parser_failure_modes.2.2.2.2.1 "xyz" (by decide), ?_, ?_⟩
  · exact numeric_parser_failure_modes.2.2.2.2.2.1 "xyz" (by decide) (by decide) (by decide)
  · exact numeric_parser_failure_modes.2.2.2.2.2.2 "xyz" (by decide) (by decide)

/-! ### Claim C7: sheet resolution -/

theorem mem_dictInsert {d : List (String × String)} {k v : String} {p : String × String}
    (h : p ∈ dictInsert d k v) : p ∈ d ∨ p = (k, v) := by
  unfold dictInsert at h
  split at h
  · obtain ⟨q, hq, rfl⟩ := List.mem_map.1 h
    by_cases hk : (q.1 == k) = true
    · right
      simp [hk]
    · left
      simpa [hk] using hq
  · rcases List.mem_append.1 h with h | h
    · exact Or.inl h
    · right
      simpa using h

theorem mem_lowerNameDict_aux :
    ∀ (names : List String) (d : List (String × String)) (p : String × String),
      p ∈ names.foldl (fun d n => dictInsert d (pyLower n) n) d →
      p ∈ d ∨ ∃ n ∈ names, p = (pyLower n, n) := by
  intro names
  induction names with
  | nil => exact fun d p h => Or.inl h
  | cons n ns ih =>
    intro d p h
    simp only [List.foldl_cons] at h
    rcases ih _ p h with h' | ⟨m, hm, rfl⟩
    · rcases mem_dictInsert h' with h'' | rfl
      · exact Or.inl h''
      · exact Or.inr ⟨n, List.mem_cons_self _ _, rfl⟩
    · exact Or.inr ⟨m, List.mem_cons_of_mem _ hm, rfl⟩

theorem dictGet?_isSome_iff {d : List (String × String)} {k : String} :
    (dictGet? d k).isSome ↔ ∃ p ∈ d, p.1 = k := by
  constructor
  · intro hs
    obtain ⟨v, hv⟩ := Option.isSome_iff_exists.1 hs
    unfold dictGet? at hv
    obtain ⟨p, hp, hpv⟩ := Option.map_eq_some'.1 hv
    exact ⟨p, List.mem_of_find?_eq_some hp, by simpa using List.find?_some hp⟩
  · rintro ⟨p, hp, hpk⟩
    unfold dictGet?
    have hfs : (List.find? (fun p => p.1 == k) d).isSome := by
      rw [List.find?_isSome]
      exact ⟨p, hp, by simp [hpk]⟩
    obtain ⟨q, hq⟩ := Option.isSome_iff_exists.1 hfs
    simp [hq]

theorem dictGet?_isSome_dictInsert {d : List (String × String)} {k' v k : String}
    (h : (dictGet? d k).isSome) : (dictGet? (dictInsert d k' v) k).isSome := by
  rw [dictGet?_isSome_iff] at h ⊢
  obtain ⟨p, hp, hpk⟩ := h
  unfold dictInsert
  split
  · by_cases hk : (p.1 == k') = true
    · refine ⟨(k', v), List.mem_map.2 ⟨p, hp, by simp [hk]⟩, ?_⟩
      have hk' : p.1 = k' := by simpa using hk
      rw [← hk']
      exact hpk
    · exact ⟨p, List.mem_map.2 ⟨p, hp, by simp [hk]⟩, hpk⟩
  · exact ⟨p, List.mem_append_left _ hp, hpk⟩

theorem dictGet?_isSome_dictInsert_self {d : List (String × String)} {k v : String} :
    (dictGet? (dictInsert d k v) k).isSome := by
  rw [dictGet?_isSome_iff]
  unfold dictInsert
  split
  · rename_i hany
    obtain ⟨q, hq, hqk⟩ := List.any_eq_true.1 hany
    exact ⟨(k, v), List.mem_map.2 ⟨q, hq, by simp [hqk]⟩, rfl⟩
  · exact ⟨(k, v), List.mem_append_right _ (List.mem_singleton_self _), rfl⟩

theorem lowerNameDict_isSome_aux :
    ∀ (names : List String) (d : List (String × String)) (n : String),
      (n ∈ names ∨ (dictGet? d (pyLower n)).isSome) →
      (dictGet? (names.foldl (fun d m => dictInsert d (pyLower m) m) d) (pyLower n)).isSome := by
  intro names
  induction names with
  | nil =>
    intro d n h
    exact h.resolve_left (by simp)
  | cons m ms ih =>
    intro d n h
    simp only [List.foldl_cons]
    rcases h with h | h
    · rcases List.mem_cons.1 h with rfl | h'
      · exact ih _ _ (Or.inr dictGet?_isSome_dictInsert_self)
      · exact ih _ _ (Or.inl h')
    · exact ih _ _ (Or.inr (dictGet?_isSome_dictInsert h))

theorem dictGet?_lowerNameDict_some {names : List String} {k v : String}
    (h : dictGet? (lowerNameDict names) k = some v) : v ∈ names ∧ pyLower v = k := by
  unfold dictGet? at h
  obtain ⟨p, hp, hpv⟩ := Option.map_eq_some'.1 h
  have hmem := List.mem_of_find?_eq_some hp
  have hkey : p.1 = k := by simpa using List.find?_some hp
  rcases mem_lowerNameDict_aux names [] p hmem with h' | ⟨n, hn, rfl⟩
  · simp at h'
  · subst hpv
    exact ⟨hn, hkey⟩

theorem anyLower_eq_isSome (names : List String) (c : String) :
    (names.any fun n => pyLower n == pyLower c) =
      (dictGet? (lowerNameDict names) (pyLower c)).isSome := by
  rw [Bool.eq_iff_iff, List.any_eq_true]
  constructor
  · rintro ⟨n, hn, he⟩
    rw [beq_iff_eq] at he
    rw [← he]
    exact lowerNameDict_isSome_aux names [] n (Or.inl hn)
  · intro h
    obtain ⟨v, hv⟩ := Option.isSome_iff_exists.1 h
    obtain ⟨hvm, hvk⟩ := dictGet?_lowerNameDict_some hv
    exact ⟨v, hvm, by simp [hvk]⟩

theorem findSheetLoop_eq_none {d : List (String × String)} :
    ∀ cands : List String,
      findSheetLoop d cands = none ↔ ∀ c ∈ cands, dictGet? d (pyLower c) = none := by
  intro cands
  induction cands with
  | nil => simp [findSheetLoop]
  | cons a rest ih =>
    unfold findSheetLoop
    cases h : dictGet? d (pyLower a) with
    | none => simp [h, ih]
    | some n => simp [h]

theorem findSheetLoop_of_find? {d : List (String × String)} {cands : List String} {c : String}
    (h : cands.find? (fun c => (dictGet? d (pyLower c)).isSome) = some c) :
    findSheetLoop d cands = dictGet? d (pyLower c) := by
  induction cands with
  | nil => simp at h
  | cons a rest ih =>
    rw [List.find?_cons] at h
    unfold findSheetLoop
    cases ha : dictGet? d (pyLower a) with
    | none =>
      rw [ha] at h
      simp at h
      exact ih h
    | some n =>
      rw [ha] at h
      simp at h
      subst h
      exact ha.symm

/-- C7: `find_sheet` returns the sheet named by the first candidate matching
a workbook sheet name case-insensitively; failing that, the single sheet of a
one-sheet workbook; otherwise null.  The v3 copy behaves identically. -/
theorem find_sheet_resolution :
    (∀ (sheetnames cands : List String) (c : String),
      cands.find? (fun c => sheetnames.any fun n => pyLower n == pyLower c) = some c →
      ∃ n, find_sheet sheetnames cands = some n ∧ n ∈ sheetnames ∧ pyLower n = pyLower c) ∧
    (∀ sheetnames cands : List String,
      cands.find? (fun c => sheetnames.any fun n => pyLower n == pyLower c) = none →
      sheetnames.length = 1 → find_sheet sheetnames cands = sheetnames.head?) ∧
    (∀ sheetnames cands : List String,
      cands.find? (fun c => sheetnames.any fun n => pyLower n == pyLower c) = none →
      sheetnames.length ≠ 1 → find_sheet sheetnames cands = none) ∧
    (∀ sheetnames cands : List String,
      find_sheet_v3 sheetnames cands = find_sheet sheetnames cands) := by
  have hpred : ∀ sheetnames : List String,
      (fun c => sheetnames.any fun n => pyLower n == pyLower c) =
        (fun c => (dictGet? (lowerNameDict sheetnames) (pyLower c)).isSome) :=
    fun sheetnames => funext fun c => anyLower_eq_isSome sheetnames c
  refine ⟨?_, ?_, ?_, fun _ _ => rfl⟩
  · intro sheetnames cands c h
    rw [hpred] at h
    have hloop := findSheetLoop_of_find? h
    have hsome : ((dictGet? (lowerNameDict sheetnames) (pyLower c))).isSome := by
      simpa using List.find?_some h
    obtain ⟨v, hv⟩ := Option.isSome_iff_exists.1 hsome
    obtain ⟨hvm, hvk⟩ := dictGet?_lowerNameDict_some hv
    refine ⟨v, ?_, hvm, hvk⟩
    unfold find_sheet
    rw [hloop, hv]
  · intro sheetnames cands h hlen
    rw [hpred] at h
    have hloop : findSheetLoop (lowerNameDict sheetnames) cands = none := by
      rw [findSheetLoop_eq_none]
      intro c hc
      have := List.find?_eq_none.1 h c hc
      simpa using this
    unfold find_sheet
    rw [hloop, if_pos hlen]
  · intro sheetnames cands h hlen
    rw [hpred] at h
    have hloop : findSheetLoop (lowerNameDict sheetnames) cands = none := by
      rw [findSheetLoop_eq_none]
      intro c hc
      have := List.find?_eq_none.1 h c hc
      simpa using this
    unfold find_sheet
    rw [hloop, if_neg hlen]

/-- C7 witness: the two concrete resolutions of the spec plus a two-sheet
no-match failure. -/
theorem find_sheet_resolution_witness :
    (∃ n, find_sheet ["Order book", "Summary"] ["Orderbook", "Order book"] = some n ∧
        n ∈ ["Order book", "Summary"] ∧ pyLower n = pyLower "Order book") ∧
    find_sheet ["Blad1"] ["Orderbook"] = ["Blad1"].head? ∧
    find_sheet ["A", "B"] ["C"] = none := by
  refine ⟨find_sheet_resolution.1 _ _ "Order book" (by decide),
    find_sheet_resolution.2.1 _ _ (by decide) (by decide),
    find_sheet_resolution.2.2.1 _ _ (by decide) (by decide)⟩

/-! ### Claim C6: base-currency conversion invariant -/

/-- C6: every order passing the inclusion gate satisfies
`belopp_sek = round2(belopp * fx_rate[valuta])`; a currency code absent from
the table falls back to rate 1.0 rather than failing, and with SEK at rate
1.0 (or absent) an SEK order converts to its own rounded amount. -/
theorem order_fx_conversion :
    (∀ (fx : List (String × ℚ)) (rows : List OrderRow) (o : Order),
      o ∈ parse_order_book fx rows →
      o.belopp_sek = round2 (o.belopp * fxGet fx o.valuta)) ∧
    (∀ (fx : List (String × ℚ)) (c : String),
      fx.find? (fun p => p.1 == c) = none → fxGet fx c = 1) ∧
    (∀ (fx : List (String × ℚ)) (rows : List OrderRow) (o : Order),
      fx.find? (fun p => p.1 == "SEK") = none ∨
        fx.find? (fun p => p.1 == "SEK") = some ("SEK", 1) →
      o ∈ parse_order_book fx rows → o.valuta = "SEK" → o.belopp_sek = round2 o.belopp) := by
  have main : ∀ (fx : List (String × ℚ)) (rows : List OrderRow) (o : Order),
      o ∈ parse_order_book fx rows →
      o.belopp_sek = round2 (o.belopp * fxGet fx o.valuta) := by
    intro fx rows
    induction rows with
    | nil =>
      intro o h
      simp [parse_order_book] at h
    | cons r rest ih =>
      intro o h
      unfold parse_order_book at h
      split at h
      · rcases List.mem_cons.1 h with rfl | h'
        · rfl
        · exact ih o h'
      · exact ih o h
  refine ⟨main, ?_, ?_⟩
  · intro fx c h
    simp [fxGet, h]
  · intro fx rows o hsek hmem hval
    have hg : fxGet fx "SEK" = 1 := by
      rcases hsek with h | h <;> simp [fxGet, h]
    have := main fx rows o hmem
    rw [hval, hg, mul_one] at this
    exact this

/-- C6 witness: a concrete EUR row converts at the table rate and rounds to
1120.00 SEK. -/
theorem order_fx_conversion_witness :
    orderW6 ∈ parse_order_book fxW6 [rowW6] ∧
    orderW6.belopp_sek = round2 (orderW6.belopp * fxGet fxW6 orderW6.valuta) ∧
    orderW6.belopp_sek = 1120 := by
  have hca : clean_amount_with_currency (some "100 EUR") = (some (mkRat 100 1), some "EUR") := by
    decide
  have hmem : orderW6 ∈ parse_order_book fxW6 [rowW6] := by
    have hp : parse_order_book fxW6 [rowW6] = [orderW6] := by
      unfold parse_order_book rowW6
      rw [hca]
      rfl
    rw [hp]
    exact List.mem_singleton_self _
  refine ⟨hmem, order_fx_conversion.1 _ _ _ hmem, ?_⟩
  have hfx : fxGet fxW6 "EUR" = mkRat 112 10 := by
    simp [fxGet, fxW6]
  show round2 (mkRat 100 1 * fxGet fxW6 "EUR") = 1120
  rw [hfx]
  norm_num [Rat.mkRat_eq_div, round2, roundHalfEven]

/-! ### Claim C8: strict 90-day aging boundary -/

/-- C8: the aging analysis returns exactly the dated orders strictly older
than 90 days (91 days qualifies, 90 does not), sorted descending by
`days_old`; undated orders are simply excluded. -/
theorem order_aging_strict_90 :
    ∀ (orders : List Order) (today : ℤ),
      (∀ a : AgingAlert,
        a ∈ analyze_order_aging orders today ↔
          ∃ o ∈ orders, ∃ d : ℤ,
            o.orderdatum = some d ∧ today - d > 90 ∧ a = mkAgingAlert o d today) ∧
      (analyze_order_aging orders today).Pairwise (fun a b => b.days_old ≤ a.days_old) ∧
      (∀ a ∈ analyze_order_aging orders today, a.days_old > 90) := by
  intro orders today
  have hmem : ∀ a : AgingAlert,
      a ∈ analyze_order_aging orders today ↔
        ∃ o ∈ orders, ∃ d : ℤ,
          o.orderdatum = some d ∧ today - d > 90 ∧ a = mkAgingAlert o d today := by
    intro a
    unfold analyze_order_aging
    rw [List.mem_mergeSort, List.mem_filterMap]
    constructor
    · rintro ⟨o, ho, hfo⟩
      split at hfo
      · simp at hfo
      · rename_i d hd
        split at hfo
        · rename_i hgt
          refine ⟨o, ho, d, hd, hgt, ?_⟩
          injection hfo with hfo
          exact hfo.symm
        · simp at hfo
    · rintro ⟨o, ho, d, hd, hgt, rfl⟩
      refine ⟨o, ho, ?_⟩
      rw [hd]
      show (if today - d > 90 then some (mkAgingAlert o d today) else none) =
        some (mkAgingAlert o d today)
      rw [if_pos hgt]
  refine ⟨hmem, ?_, ?_⟩
  · have hs := @List.sorted_mergeSort AgingAlert
      (fun a b : AgingAlert => decide (b.days_old ≤ a.days_old))
      (fun a b c hab hbc => by
        simp only [decide_eq_true_eq] at hab hbc ⊢
        omega)
      (fun a b => by
        simp only [Bool.or_eq_true, decide_eq_true_eq]
        omega)
      (orders.filterMap (fun o =>
        match o.orderdatum with
        | none => none
        | some d => if today - d > 90 then some (mkAgingAlert o d today) else none))
    exact hs.imp (fun h => by simpa using h)
  · intro a ha
    obtain ⟨o, _, d, _, hgt, rfl⟩ := (hmem a).1 ha
    simpa [mkAgingAlert] using hgt

/-- C8 witness: with "today" = 1000, the order dated 909 (91 days old) is
reported and the order dated 910 (90 days old) is not. -/
theorem order_aging_strict_90_witness :
    mkAgingAlert orderW91 909 1000 ∈ analyze_order_aging [orderW91, orderW90] 1000 ∧
    mkAgingAlert orderW90 910 1000 ∉ analyze_order_aging [orderW91, orderW90] 1000 := by
  constructor
  · exact ((order_aging_strict_90 [orderW91, orderW90] 1000).1 _).2
      ⟨orderW91, by decide, 909, rfl, by decide, rfl⟩
  · intro hmemx
    have h90 := (order_aging_strict_90 [orderW91, orderW90] 1000).2.2 _ hmemx
    simp [mkAgingAlert] at h90

/-! ### Claim C10: extracted amounts are non-negative -/

theorem mem_stripPyWS {a : Char} {cs : List Char} (h : a ∈ stripPyWS cs) : a ∈ cs := by
  unfold stripPyWS at h
  rw [List.mem_reverse] at h
  have h1 : a ∈ (cs.dropWhile isPySpace).reverse := List.Sublist.mem h (List.dropWhile_sublist _)
  rw [List.mem_reverse] at h1
  exact List.Sublist.mem h1 (List.dropWhile_sublist _)

theorem minus_not_mem_resolveAmount (cs : List Char) :
    '-' ∉ resolveSeparatorsAmount (dropSpaceChars (amountGroup1 cs)) := by
  intro h
  have hclass : ∀ c : Char, c ∈ dropSpaceChars (amountGroup1 cs) → inAmountClass c = true := by
    intro c hc
    exact List.mem_takeWhile_imp (List.mem_of_mem_filter hc)
  unfold resolveSeparatorsAmount at h
  split at h
  · obtain ⟨c, hc, hce⟩ := List.mem_map.1 h
    have hcm : c ∈ dropSpaceChars (amountGroup1 cs) := List.mem_of_mem_filter hc
    have : c = '-' := by
      by_cases hcomma : (c == ',') = true
      · simp [hcomma] at hce
      · simpa [hcomma] using hce
    subst this
    simpa [inAmountClass, isPyDigit, isPySpace] using hclass _ hcm
  · have hcm : '-' ∈ dropSpaceChars (amountGroup1 cs) := List.mem_of_mem_filter h
    simpa [inAmountClass, isPyDigit, isPySpace] using hclass _ hcm

theorem pySign_fst_of_not_minus {t : List Char} (h : '-' ∉ t) : (pySign t).1 = 1 := by
  unfold pySign
  split
  · exact absurd (List.mem_cons_self _ _) h
  · rfl
  · rfl

theorem pyFloatChars_nonneg {cs : List Char} {q : ℚ} (hm : '-' ∉ cs)
    (h : pyFloatChars cs = some q) : 0 ≤ q := by
  have hmt : '-' ∉ stripPyWS cs := fun hx => hm (mem_stripPyWS hx)
  simp only [pyFloatChars] at h
  split at h
  · simp at h
  · split at h
    · rename_i e he
      injection h with h
      subst h
      rw [pySign_fst_of_not_minus hmt]
      apply Rat.mkRat_nonneg
      positivity
    · simp at h

theorem clean_amount_fst_nonneg {raw : Option String} {b : ℚ}
    (h : (clean_amount_with_currency raw).1 = some b) : 0 ≤ b := by
  rcases raw with _ | s
  · simp [clean_amount_with_currency] at h
  · simp only [clean_amount_with_currency] at h
    rcases hc : clean_amount_core s with _ | qc
    · rw [hc] at h
      simp at h
    · rw [hc] at h
      simp at h
      subst h
      simp only [clean_amount_core] at hc
      split at hc
      · simp at hc
      · split at hc
        · rename_i q hq
          injection hc with hc
          have hb : qc.1 = q := by rw [← hc]
          rw [hb]
          exact pyFloatChars_nonneg (minus_not_mem_resolveAmount _) hq
        · simp at hc

theorem roundHalfEven_nonneg {q : ℚ} (h : 0 ≤ q) : 0 ≤ roundHalfEven q := by
  simp only [roundHalfEven]
  have hf : (0 : ℤ) ≤ ⌊q⌋ := by
    rw [Int.le_floor]
    simpa using h
  split_ifs <;> omega

theorem round2_nonneg {q : ℚ} (h : 0 ≤ q) : 0 ≤ round2 q := by
  unfold round2
  apply div_nonneg _ (by norm_num)
  exact_mod_cast roundHalfEven_nonneg (by positivity)

/-- C10: the amount regex admits no minus sign, so a cell text starting with
`-` fails parsing and its row is skipped; every parsed amount is
non-negative, and with non-negative exchange rates so is every converted
amount. -/
theorem orders_nonnegative :
    (∀ s : String, (stripPyWS s.data).head? = some '-' →
      clean_amount_with_currency (some s) = (none, none)) ∧
    (∀ (raw : Option String) (b : ℚ),
      (clean_amount_with_currency raw).1 = some b → 0 ≤ b) ∧
    (∀ fx : List (String × ℚ), (∀ p ∈ fx, 0 ≤ p.2) →
      ∀ (rows : List OrderRow) (o : Order),
        o ∈ parse_order_book fx rows → 0 ≤ o.belopp ∧ 0 ≤ o.belopp_sek) := by
  refine ⟨?_, fun raw b => clean_amount_fst_nonneg, ?_⟩
  · intro s hh
    rcases hcs : stripPyWS s.data with _ | ⟨a, t⟩
    · rw [hcs] at hh
      simp at hh
    · rw [hcs] at hh
      simp at hh
      subst hh
      simp only [clean_amount_with_currency, clean_amount_core]
      rw [hcs]
      have hg : amountGroup1 ('-' :: t) = [] := by
        unfold amountGroup1
        rw [List.takeWhile_cons_of_neg (by simp [inAmountClass, isPyDigit, isPySpace])]
      rw [hg]
      rfl
  · intro fx hfx rows
    have hrate : ∀ c : String, 0 ≤ fxGet fx c := by
      intro c
      unfold fxGet
      rcases hf : fx.find? (fun p => p.1 == c) with _ | p
      · rw [hf]
        norm_num
      · rw [hf]
        have := hfx p (List.mem_of_find?_eq_some hf)
        simpa using this
    induction rows with
    | nil =>
      intro o h
      simp [parse_order_book] at h
    | cons r rest ih =>
      intro o h
      unfold parse_order_book at h
      split at h
      · rename_i b v heq
        rcases List.mem_cons.1 h with rfl | h'
        · have hb : 0 ≤ b := clean_amount_fst_nonneg (by rw [heq])
          exact ⟨hb, round2_nonneg (mul_nonneg hb (hrate v))⟩
        · exact ih o h'
      · exact ih o h

/-- C10 witness: "-5" is rejected outright, and the order parsed from
"3 800,50" carries non-negative amounts under a non-negative rate table. -/
theorem orders_nonnegative_witness :
    clean_amount_with_currency (some "-5") = (none, none) ∧
    orderW10 ∈ parse_order_book fxW10 [rowW10] ∧
    0 ≤ orderW10.belopp ∧ 0 ≤ orderW10.belopp_sek := by
  have h1 := orders_nonnegative.1 "-5" (by decide)
  have hca : clean_amount_with_currency (some "3 800,50") =
      (some (mkRat 380050 100), some "SEK") := by decide
  have hmem : orderW10 ∈ parse_order_book fxW10 [rowW10] := by
    have hp : parse_order_book fxW10 [rowW10] = [orderW10] := by
      unfold parse_order_book rowW10
      rw [hca]
      rfl
    rw [hp]
    exact List.mem_singleton_self _
  have h3 := orders_nonnegative.2.2 fxW10 (by decide) [rowW10] orderW10 hmem
  exact ⟨h1, hmem, h3⟩

/-! ### Claim C9: zero grand total in concentration analysis -/

/-- C9: when the summed per-customer totals are zero the concentration
analysis returns `([], 0, 0)` — no division happens, the top-5 report
carries no non-zero percentage and the top-3 percentage is zero. -/
theorem concentration_zero_total :
    ∀ orders : List Order,
      ((customerTotals orders).map (·.2)).sum = 0 →
      analyze_customer_concentration orders = ([], 0, 0) ∧
      ∀ e ∈ (analyze_customer_concentration orders).1, e.2.2 = 0 := by
  intro orders h
  have hz : analyze_customer_concentration orders = ([], 0, 0) := by
    unfold analyze_customer_concentration
    rw [if_pos h]
  refine ⟨hz, ?_⟩
  rw [hz]
  intro e he
  simp at he

/-- C9 witness: a single zero-revenue order gives a zero grand total and the
`([], 0, 0)` result. -/
theorem concentration_zero_total_witness :
    analyze_customer_concentration [orderW9] = ([], 0, 0) := by
  refine (concentration_zero_total [orderW9] ?_).1
  norm_num [customerTotals, upsertAdd, orderW9]

/-! ### Claim C2: the five cohorts partition the customers -/

theorem cohortOf_eq_churned {curr prev : String} {c : CustomerV3} :
    cohortOf curr prev c = Cohort.churned ↔
      c.churned = true ∨ (ltmGet c prev > 0 ∧ ltmGet c curr = 0) := by
  unfold cohortOf
  split_ifs with h1 h2 h3 h4 <;> simp_all

theorem cohortOf_eq_new {curr prev : String} {c : CustomerV3} :
    cohortOf curr prev c = Cohort.new ↔
      ¬(c.churned = true ∨ (ltmGet c prev > 0 ∧ ltmGet c curr = 0)) ∧
        (ltmGet c prev = 0 ∧ ltmGet c curr > 0) := by
  unfold cohortOf
  split_ifs with h1 h2 h3 h4 <;> simp_all

theorem cohortOf_eq_declining {curr prev : String} {c : CustomerV3} :
    cohortOf curr prev c = Cohort.declining ↔
      ¬(c.churned = true ∨ (ltmGet c prev > 0 ∧ ltmGet c curr = 0)) ∧
        ¬(ltmGet c prev = 0 ∧ ltmGet c curr > 0) ∧
        ltmGet c curr - ltmGet c prev < 0 := by
  unfold cohortOf
  split_ifs with h1 h2 h3 h4 <;> simp_all

theorem cohortOf_eq_growing {curr prev : String} {c : CustomerV3} :
    cohortOf curr prev c = Cohort.growing ↔
      ¬(c.churned = true ∨ (ltmGet c prev > 0 ∧ ltmGet c curr = 0)) ∧
        ¬(ltmGet c prev = 0 ∧ ltmGet c curr > 0) ∧
        ¬(ltmGet c curr - ltmGet c prev < 0) ∧
        ltmGet c curr - ltmGet c prev > 0 := by
  unfold cohortOf
  split_ifs with h1 h2 h3 h4 <;> simp_all

theorem cohortOf_eq_flat {curr prev : String} {c : CustomerV3} :
    cohortOf curr prev c = Cohort.flat ↔
      ¬(c.churned = true ∨ (ltmGet c prev > 0 ∧ ltmGet c curr = 0)) ∧
        ¬(ltmGet c prev = 0 ∧ ltmGet c curr > 0) ∧
        ¬(ltmGet c curr - ltmGet c prev < 0) ∧
        ¬(ltmGet c curr - ltmGet c prev > 0) := by
  unfold cohortOf
  split_ifs with h1 h2 h3 h4 <;> simp_all

theorem analyzeCohortsLoop_churned (curr prev : String) :
    ∀ cs : List CustomerV3,
      (analyzeCohortsLoop curr prev cs).churned =
        (cs.filter (fun c => decide (cohortOf curr prev c = Cohort.churned))).map
          (fun c => mkChurnEntry c curr prev) := by
  intro cs
  induction cs with
  | nil => rfl
  | cons c rest ih =>
    unfold analyzeCohortsLoop
    rw [List.filter_cons]
    cases h : cohortOf curr prev c <;> simp [h, ih]

theorem analyzeCohortsLoop_new (curr prev : String) :
    ∀ cs : List CustomerV3,
      (analyzeCohortsLoop curr prev cs).new =
        (cs.filter (fun c => decide (cohortOf curr prev c = Cohort.new))).map
          (fun c => mkNewEntry c curr) := by
  intro cs
  induction cs with
  | nil => rfl
  | cons c rest ih =>
    unfold analyzeCohortsLoop
    rw [List.filter_cons]
    cases h : cohortOf curr prev c <;> simp [h, ih]

theorem analyzeCohortsLoop_declining (curr prev : String) :
    ∀ cs : List CustomerV3,
      (analyzeCohortsLoop curr prev cs).declining =
        (cs.filter (fun c => decide (cohortOf curr prev c = Cohort.declining))).map
          (fun c => mkMoveEntry c curr prev) := by
  intro cs
  induction cs with
  | nil => rfl
  | cons c rest ih =>
    unfold analyzeCohortsLoop
    rw [List.filter_cons]
    cases h : cohortOf curr prev c <;> simp [h, ih]

theorem analyzeCohortsLoop_growing (curr prev : String) :
    ∀ cs : List CustomerV3,
      (analyzeCohortsLoop curr prev cs).growing =
        (cs.filter (fun c => decide (cohortOf curr prev c = Cohort.growing))).map
          (fun c => mkMoveEntry c curr prev) := by
  intro cs
  induction cs with
  | nil => rfl
  | cons c rest ih =>
    unfold analyzeCohortsLoop
    rw [List.filter_cons]
    cases h : cohortOf curr prev c <;> simp [h, ih]

theorem analyze_cohorts_churned_perm (customers : List CustomerV3) (curr prev : String) :
    (analyze_cohorts customers curr prev).churned.Perm
      ((customers.filter (fun c => decide (cohortOf curr prev c = Cohort.churned))).map
        (fun c => mkChurnEntry c curr prev)) := by
  unfold analyze_cohorts
  exact (List.mergeSort_perm _ _).trans (by rw [analyzeCohortsLoop_churned])

theorem analyze_cohorts_new_perm (customers : List CustomerV3) (curr prev : String) :
    (analyze_cohorts customers curr prev).new.Perm
      ((customers.filter (fun c => decide (cohortOf curr prev c = Cohort.new))).map
        (fun c => mkNewEntry c curr)) := by
  unfold analyze_cohorts
  exact (List.mergeSort_perm _ _).trans (by rw [analyzeCohortsLoop_new])

theorem analyze_cohorts_declining_perm (customers : List CustomerV3) (curr prev : String) :
    (analyze_cohorts customers curr prev).declining.Perm
      ((customers.filter (fun c => decide (cohortOf curr prev c = Cohort.declining))).map
        (fun c => mkMoveEntry c curr prev)) := by
  unfold analyze_cohorts
  exact (List.mergeSort_perm _ _).trans (by rw [analyzeCohortsLoop_declining])

theorem analyze_cohorts_growing_perm (customers : List CustomerV3) (curr prev : String) :
    (analyze_cohorts customers curr prev).growing.Perm
      ((customers.filter (fun c => decide (cohortOf curr prev c = Cohort.growing))).map
        (fun c => mkMoveEntry c curr prev)) := by
  unfold analyze_cohorts
  exact (List.mergeSort_perm _ _).trans (by rw [analyzeCohortsLoop_growing])

theorem length_filter_cohorts (curr prev : String) (cs : List CustomerV3) :
    (cs.filter (fun c => decide (cohortOf curr prev c = Cohort.churned))).length
      + (cs.filter (fun c => decide (cohortOf curr prev c = Cohort.declining))).length
      + (cs.filter (fun c => decide (cohortOf curr prev c = Cohort.growing))).length
      + (cs.filter (fun c => decide (cohortOf curr prev c = Cohort.new))).length
      + (cs.filter (fun c => decide (cohortOf curr prev c = Cohort.flat))).length
      = cs.length := by
  induction cs with
  | nil => rfl
  | cons c rest ih =>
    simp only [List.filter_cons]
    cases h : cohortOf curr prev c <;> simp [h] <;> omega

/-- C2: the cohort analysis assigns every customer to exactly one of the five
buckets: each returned bucket is (a permutation of) the customers whose
classification carries that label, the four bucket sizes plus the flat
remainder count add up to the whole customer list, and the five labels'
conditions are the mutually exclusive ones of the if/elif chain. -/
theorem cohorts_partition :
    ∀ (customers : List CustomerV3) (curr prev : String),
      (analyze_cohorts customers curr prev).churned.Perm
        ((customers.filter (fun c => decide (cohortOf curr prev c = Cohort.churned))).map
          (fun c => mkChurnEntry c curr prev)) ∧
      (analyze_cohorts customers curr prev).declining.Perm
        ((customers.filter (fun c => decide (cohortOf curr prev c = Cohort.declining))).map
          (fun c => mkMoveEntry c curr prev)) ∧
      (analyze_cohorts customers curr prev).growing.Perm
        ((customers.filter (fun c => decide (cohortOf curr prev c = Cohort.growing))).map
          (fun c => mkMoveEntry c curr prev)) ∧
      (analyze_cohorts customers curr prev).new.Perm
        ((customers.filter (fun c => decide (cohortOf curr prev c = Cohort.new))).map
          (fun c => mkNewEntry c curr)) ∧
      ((analyze_cohorts customers curr prev).churned.length
        + (analyze_cohorts customers curr prev).declining.length
        + (analyze_cohorts customers curr prev).growing.length
        + (analyze_cohorts customers curr prev).new.length
        + (customers.filter (fun c => decide (cohortOf curr prev c = Cohort.flat))).length
        = customers.length) ∧
      (∀ c : CustomerV3,
        (cohortOf curr prev c = Cohort.churned ↔
          c.churned = true ∨ (ltmGet c prev > 0 ∧ ltmGet c curr = 0)) ∧
        (cohortOf curr prev c = Cohort.new ↔
          ¬(c.churned = true ∨ (ltmGet c prev > 0 ∧ ltmGet c curr = 0)) ∧
            (ltmGet c prev = 0 ∧ ltmGet c curr > 0)) ∧
        (cohortOf curr prev c = Cohort.declining ↔
          ¬(c.churned = true ∨ (ltmGet c prev > 0 ∧ ltmGet c curr = 0)) ∧
            ¬(ltmGet c prev = 0 ∧ ltmGet c curr > 0) ∧
            ltmGet c curr - ltmGet c prev < 0) ∧
        (cohortOf curr prev c = Cohort.growing ↔
          ¬(c.churned = true ∨ (ltmGet c prev > 0 ∧ ltmGet c curr = 0)) ∧
            ¬(ltmGet c prev = 0 ∧ ltmGet c curr > 0) ∧
            ¬(ltmGet c curr - ltmGet c prev < 0) ∧
            ltmGet c curr - ltmGet c prev > 0) ∧
        (cohortOf curr prev c = Cohort.flat ↔
          ¬(c.churned = true ∨ (ltmGet c prev > 0 ∧ ltmGet c curr = 0)) ∧
            ¬(ltmGet c prev = 0 ∧ ltmGet c curr > 0) ∧
            ¬(ltmGet c curr - ltmGet c prev < 0) ∧
            ¬(ltmGet c curr - ltmGet c prev > 0))) := by
  intro customers curr prev
  refine ⟨analyze_cohorts_churned_perm customers curr prev,
    analyze_cohorts_declining_perm customers curr prev,
    analyze_cohorts_growing_perm customers curr prev,
    analyze_cohorts_new_perm customers curr prev, ?_, ?_⟩
  · rw [(analyze_cohorts_churned_perm customers curr prev).length_eq,
      (analyze_cohorts_declining_perm customers curr prev).length_eq,
      (analyze_cohorts_growing_perm customers curr prev).length_eq,
      (analyze_cohorts_new_perm customers curr prev).length_eq]
    simp only [List.length_map]
    exact length_filter_cohorts curr prev customers
  · intro c
    exact ⟨cohortOf_eq_churned, cohortOf_eq_new, cohortOf_eq_declining, cohortOf_eq_growing,
      cohortOf_eq_flat⟩

/-- C2 witness: on a concrete five-customer dataset containing one customer
of each label, the four bucket sizes plus the flat remainder add up to the
input size. -/
theorem cohorts_partition_witness :
    (analyze_cohorts
        [⟨"A", [("L25", 0), ("L24", 200)], false⟩,
          ⟨"B", [("L25", 100), ("L24", 200)], false⟩,
          ⟨"C", [("L25", 300), ("L24", 200)], false⟩,
          ⟨"D", [("L25", 50), ("L24", 0)], false⟩,
          ⟨"E", [("L25", 200), ("L24", 200)], false⟩] "L25" "L24").churned.length
      + (analyze_cohorts
          [⟨"A", [("L25", 0), ("L24", 200)], false⟩,
            ⟨"B", [("L25", 100), ("L24", 200)], false⟩,
            ⟨"C", [("L25", 300), ("L24", 200)], false⟩,
            ⟨"D", [("L25", 50), ("L24", 0)], false⟩,
            ⟨"E", [("L25", 200), ("L24", 200)], false⟩] "L25" "L24").declining.length
      + (analyze_cohorts
          [⟨"A", [("L25", 0), ("L24", 200)], false⟩,
            ⟨"B", [("L25", 100), ("L24", 200)], false⟩,
            ⟨"C", [("L25", 300), ("L24", 200)], false⟩,
            ⟨"D", [("L25", 50), ("L24", 0)], false⟩,
            ⟨"E", [("L25", 200), ("L24", 200)], false⟩] "L25" "L24").growing.length
      + (analyze_cohorts
          [⟨"A", [("L25", 0), ("L24", 200)], false⟩,
            ⟨"B", [("L25", 100), ("L24", 200)], false⟩,
            ⟨"C", [("L25", 300), ("L24", 200)], false⟩,
            ⟨"D", [("L25", 50), ("L24", 0)], false⟩,
            ⟨"E", [("L25", 200), ("L24", 200)], false⟩] "L25" "L24").new.length
      + ([⟨"A", [("L25", 0), ("L24", 200)], false⟩,
            ⟨"B", [("L25", 100), ("L24", 200)], false⟩,
            ⟨"C", [("L25", 300), ("L24", 200)], false⟩,
            ⟨"D", [("L25", 50), ("L24", 0)], false⟩,
            ⟨"E", [("L25", 200), ("L24", 200)], false⟩].filter
          (fun c : CustomerV3 => decide (cohortOf "L25" "L24" c = Cohort.flat))).length
      = 5 :=
  (cohorts_partition _ "L25" "L24").2.2.2.2.1

/-! ### Claim C3: revenue-bridge reconciliation -/

theorem list_sum_nonpos {l : List ℚ} (h : ∀ x ∈ l, x ≤ 0) : l.sum ≤ 0 := by
  induction l with
  | nil => simp
  | cons x xs ih =>
    simp only [List.sum_cons]
    have hx := h x (List.mem_cons_self _ _)
    have hxs := ih fun y hy => h y (List.mem_cons_of_mem _ hy)
    linarith

theorem bridge_prev_ltm_val (cs : List CustomerV3) (curr prev : String) :
    (generate_html_bridge cs curr prev).prev_ltm_val =
      (cs.map (fun c => ltmGet c prev)).sum := rfl

theorem bridge_total_ltm (cs : List CustomerV3) (curr prev : String) :
    (generate_html_bridge cs curr prev).total_ltm =
      (cs.map (fun c => ltmGet c curr)).sum := rfl

theorem bridge_churn_loss (cs : List CustomerV3) (curr prev : String) :
    (generate_html_bridge cs curr prev).churn_loss =
      ((cs.filter (fun c => decide (cohortOf curr prev c = Cohort.churned))).map
        (fun c => ltmGet c prev)).sum := by
  show ((analyze_cohorts cs curr prev).churned.map (·.previous)).sum = _
  rw [((analyze_cohorts_churned_perm cs curr prev).map (·.previous)).sum_eq, List.map_map]
  rfl

theorem bridge_decline_loss (cs : List CustomerV3) (curr prev : String) :
    (generate_html_bridge cs curr prev).decline_loss =
      |((cs.filter (fun c => decide (cohortOf curr prev c = Cohort.declining))).map
        (fun c => ltmGet c curr - ltmGet c prev)).sum| := by
  show |((analyze_cohorts cs curr prev).declining.map (·.change)).sum| = _
  rw [((analyze_cohorts_declining_perm cs curr prev).map (·.change)).sum_eq, List.map_map]
  rfl

theorem bridge_growth_gain (cs : List CustomerV3) (curr prev : String) :
    (generate_html_bridge cs curr prev).growth_gain =
      ((cs.filter (fun c => decide (cohortOf curr prev c = Cohort.growing))).map
        (fun c => ltmGet c curr - ltmGet c prev)).sum := by
  show ((analyze_cohorts cs curr prev).growing.map (·.change)).sum = _
  rw [((analyze_cohorts_growing_perm cs curr prev).map (·.change)).sum_eq, List.map_map]
  rfl

theorem bridge_new_gain (cs : List CustomerV3) (curr prev : String) :
    (generate_html_bridge cs curr prev).new_gain =
      ((cs.filter (fun c => decide (cohortOf curr prev c = Cohort.new))).map
        (fun c => ltmGet c curr)).sum := by
  show ((analyze_cohorts cs curr prev).new.map (·.current)).sum = _
  rw [((analyze_cohorts_new_perm cs curr prev).map (·.current)).sum_eq, List.map_map]
  rfl

theorem bridge_sum_aux (curr prev : String) :
    ∀ cs : List CustomerV3,
      (∀ c ∈ cs, cohortOf curr prev c ≠ Cohort.flat) →
      (∀ c ∈ cs, cohortOf curr prev c = Cohort.churned → ltmGet c curr = 0) →
      (cs.map (fun c => ltmGet c prev)).sum
          - ((cs.filter (fun c => decide (cohortOf curr prev c = Cohort.churned))).map
              (fun c => ltmGet c prev)).sum
          + ((cs.filter (fun c => decide (cohortOf curr prev c = Cohort.declining))).map
              (fun c => ltmGet c curr - ltmGet c prev)).sum
          + ((cs.filter (fun c => decide (cohortOf curr prev c = Cohort.growing))).map
              (fun c => ltmGet c curr - ltmGet c prev)).sum
          + ((cs.filter (fun c => decide (cohortOf curr prev c = Cohort.new))).map
              (fun c => ltmGet c curr)).sum
        = (cs.map (fun c => ltmGet c curr)).sum := by
  intro cs
  induction cs with
  | nil => simp
  | cons c rest ih =>
    intro hflat hchurn
    have ihr := ih (fun x hx => hflat x (List.mem_cons_of_mem _ hx))
      (fun x hx => hchurn x (List.mem_cons_of_mem _ hx))
    simp only [List.map_cons, List.sum_cons, List.filter_cons]
    cases h : cohortOf curr prev c with
    | churned =>
      have hc0 : ltmGet c curr = 0 := hchurn c (List.mem_cons_self _ _) h
      simp only [h, decide_eq_true_eq, reduceCtorEq, decide_False, decide_True, if_true,
        if_false, List.map_cons, List.sum_cons]
      simp only [decide_eq_true_eq] at ihr ⊢
      rw [hc0] at *
      simp
      linarith
    | new =>
      have hnew := cohortOf_eq_new.1 h
      simp only [h, decide_eq_true_eq, reduceCtorEq, decide_False, decide_True, if_true,
        if_false, List.map_cons, List.sum_cons]
      linarith [hnew.2.1]
    | declining =>
      simp only [h, decide_eq_true_eq, reduceCtorEq, decide_False, decide_True, if_true,
        if_false, List.map_cons, List.sum_cons]
      linarith
    | growing =>
      simp only [h, decide_eq_true_eq, reduceCtorEq, decide_False, decide_True, if_true,
        if_false, List.map_cons, List.sum_cons]
      linarith
    | flat => exact absurd h (hflat c (List.mem_cons_self _ _))

/-- C3 (amended): for a two-period dataset with no flat customer in which,
additionally, every churned-classified customer has zero current-period
revenue (a churn-marked customer with non-zero current revenue breaks the
bridge, see the counterexample), the revenue bridge reconciles exactly —
in particular within the 0.01 tolerance. -/
theorem revenue_bridge_reconciles :
    ∀ (customers : List CustomerV3) (curr prev : String),
      (∀ c ∈ customers, cohortOf curr prev c ≠ Cohort.flat) →
      (∀ c ∈ customers, cohortOf curr prev c = Cohort.churned → ltmGet c curr = 0) →
      ((generate_html_bridge customers curr prev).prev_ltm_val
          - (generate_html_bridge customers curr prev).churn_loss
          - (generate_html_bridge customers curr prev).decline_loss
          + (generate_html_bridge customers curr prev).growth_gain
          + (generate_html_bridge customers curr prev).new_gain
        = (generate_html_bridge customers curr prev).total_ltm) ∧
      |(generate_html_bridge customers curr prev).prev_ltm_val
          - (generate_html_bridge customers curr prev).churn_loss
          - (generate_html_bridge customers curr prev).decline_loss
          + (generate_html_bridge customers curr prev).growth_gain
          + (generate_html_bridge customers curr prev).new_gain
          - (generate_html_bridge customers curr prev).total_ltm| ≤ 1 / 100 := by
  intro customers curr prev hflat hchurn
  have hdecl : ((customers.filter
      (fun c => decide (cohortOf curr prev c = Cohort.declining))).map
      (fun c => ltmGet c curr - ltmGet c prev)).sum ≤ 0 := by
    apply list_sum_nonpos
    intro x hx
    obtain ⟨c, hc, rfl⟩ := List.mem_map.1 hx
    have hcd : cohortOf curr prev c = Cohort.declining :=
      of_decide_eq_true (List.mem_filter.1 hc).2
    have := (cohortOf_eq_declining.1 hcd).2.2
    linarith
  have habs : (generate_html_bridge customers curr prev).decline_loss =
      -(((customers.filter
        (fun c => decide (cohortOf curr prev c = Cohort.declining))).map
        (fun c => ltmGet c curr - ltmGet c prev)).sum) := by
    rw [bridge_decline_loss]
    exact abs_of_nonpos hdecl
  have heq : (generate_html_bridge customers curr prev).prev_ltm_val
      - (generate_html_bridge customers curr prev).churn_loss
      - (generate_html_bridge customers curr prev).decline_loss
      + (generate_html_bridge customers curr prev).growth_gain
      + (generate_html_bridge customers curr prev).new_gain
      = (generate_html_bridge customers curr prev).total_ltm := by
    rw [bridge_prev_ltm_val, bridge_churn_loss, habs, bridge_growth_gain, bridge_new_gain,
      bridge_total_ltm]
    have := bridge_sum_aux curr prev customers hflat hchurn
    linarith
  refine ⟨heq, ?_⟩
  rw [heq]
  simp

/-- C3 counterexample: a churn-marked customer with prior revenue 200 and
current revenue 100 is classified Churned (so the dataset has no flat
customer and every customer is in exactly one of the four buckets), yet
`prior_total − churn_loss − decline_loss + growth_gain + new_gain = 0` while
`current_total = 100`: the bridge misses the tolerance by 100. -/
theorem revenue_bridge_churn_marker_cex :
    cohortOf "L25" "L24" ⟨"A", [("L25", 100), ("L24", 200)], true⟩ = Cohort.churned ∧
    ¬(|(generate_html_bridge [⟨"A", [("L25", 100), ("L24", 200)], true⟩] "L25" "L24").prev_ltm_val
        - (generate_html_bridge [⟨"A", [("L25", 100), ("L24", 200)], true⟩] "L25" "L24").churn_loss
        - (generate_html_bridge [⟨"A", [("L25", 100), ("L24", 200)], true⟩] "L25" "L24").decline_loss
        + (generate_html_bridge [⟨"A", [("L25", 100), ("L24", 200)], true⟩] "L25" "L24").growth_gain
        + (generate_html_bridge [⟨"A", [("L25", 100), ("L24", 200)], true⟩] "L25" "L24").new_gain
        - (generate_html_bridge [⟨"A", [("L25", 100), ("L24", 200)], true⟩] "L25" "L24").total_ltm|
      ≤ 1 / 100) := by
  have hc : cohortOf "L25" "L24" ⟨"A", [("L25", 100), ("L24", 200)], true⟩ = Cohort.churned := by
    decide
  refine ⟨hc, ?_⟩
  have hgp : ltmGet ⟨"A", [("L25", 100), ("L24", 200)], true⟩ "L24" = 200 := by decide
  have hgc : ltmGet ⟨"A", [("L25", 100), ("L24", 200)], true⟩ "L25" = 100 := by decide
  have h1 : (generate_html_bridge [⟨"A", [("L25", 100), ("L24", 200)], true⟩] "L25"
      "L24").prev_ltm_val = 200 := by
    rw [bridge_prev_ltm_val]
    simp [hgp]
  have h2 : (generate_html_bridge [⟨"A", [("L25", 100), ("L24", 200)], true⟩] "L25"
      "L24").total_ltm = 100 := by
    rw [bridge_total_ltm]
    simp [hgc]
  have h3 : (generate_html_bridge [⟨"A", [("L25", 100), ("L24", 200)], true⟩] "L25"
      "L24").churn_loss = 200 := by
    rw [bridge_churn_loss]
    simp [List.filter_cons, hc, hgp]
  have h4 : (generate_html_bridge [⟨"A", [("L25", 100), ("L24", 200)], true⟩] "L25"
      "L24").decline_loss = 0 := by
    rw [bridge_decline_loss]
    simp [List.filter_cons, hc]
  have h5 : (generate_html_bridge [⟨"A", [("L25", 100), ("L24", 200)], true⟩] "L25"
      "L24").growth_gain = 0 := by
    rw [bridge_growth_gain]
    simp [List.filter_cons, hc]
  have h6 : (generate_html_bridge [⟨"A", [("L25", 100), ("L24", 200)], true⟩] "L25"
      "L24").new_gain = 0 := by
    rw [bridge_new_gain]
    simp [List.filter_cons, hc]
  rw [h1, h2, h3, h4, h5, h6]
  norm_num

/-- C3 witness: on a concrete dataset with one genuinely churned, one
declining, one growing and one new customer the bridge reconciles. -/
theorem revenue_bridge_reconciles_witness :
    (generate_html_bridge
        [⟨"A", [("L25", 0), ("L24", 200)], false⟩,
          ⟨"B", [("L25", 30), ("L24", 80)], false⟩,
          ⟨"C", [("L25", 150), ("L24", 100)], false⟩,
          ⟨"D", [("L25", 50), ("L24", 0)], false⟩] "L25" "L24").prev_ltm_val
        - (generate_html_bridge
          [⟨"A", [("L25", 0), ("L24", 200)], false⟩,
            ⟨"B", [("L25", 30), ("L24", 80)], false⟩,
            ⟨"C", [("L25", 150), ("L24", 100)], false⟩,
            ⟨"D", [("L25", 50), ("L24", 0)], false⟩] "L25" "L24").churn_loss
        - (generate_html_bridge
          [⟨"A", [("L25", 0), ("L24", 200)], false⟩,
            ⟨"B", [("L25", 30), ("L24", 80)], false⟩,
            ⟨"C", [("L25", 150), ("L24", 100)], false⟩,
            ⟨"D", [("L25", 50), ("L24", 0)], false⟩] "L25" "L24").decline_loss
        + (generate_html_bridge
          [⟨"A", [("L25", 0), ("L24", 200)], false⟩,
            ⟨"B", [("L25", 30), ("L24", 80)], false⟩,
            ⟨"C", [("L25", 150), ("L24", 100)], false⟩,
            ⟨"D", [("L25", 50), ("L24", 0)], false⟩] "L25" "L24").growth_gain
        + (generate_html_bridge
          [⟨"A", [("L25", 0), ("L24", 200)], false⟩,
            ⟨"B", [("L25", 30), ("L24", 80)], false⟩,
            ⟨"C", [("L25", 150), ("L24", 100)], false⟩,
            ⟨"D", [("L25", 50), ("L24", 0)], false⟩] "L25" "L24").new_gain
      = (generate_html_bridge
          [⟨"A", [("L25", 0), ("L24", 200)], false⟩,
            ⟨"B", [("L25", 30), ("L24", 80)], false⟩,
            ⟨"C", [("L25", 150), ("L24", 100)], false⟩,
            ⟨"D", [("L25", 50), ("L24", 0)], false⟩] "L25" "L24").total_ltm := by
  have hA : cohortOf "L25" "L24" ⟨"A", [("L25", 0), ("L24", 200)], false⟩ = Cohort.churned :=
    cohortOf_eq_churned.2 (Or.inr ⟨by decide, by decide⟩)
  have hB : cohortOf "L25" "L24" ⟨"B", [("L25", 30), ("L24", 80)], false⟩ =
      Cohort.declining := by
    apply cohortOf_eq_declining.2
    refine ⟨by decide, by decide, ?_⟩
    have h1 : ltmGet ⟨"B", [("L25", 30), ("L24", 80)], false⟩ "L25" = 30 := by decide
    have h2 : ltmGet ⟨"B", [("L25", 30), ("L24", 80)], false⟩ "L24" = 80 := by decide
    rw [h1, h2]
    norm_num
  have hC : cohortOf "L25" "L24" ⟨"C", [("L25", 150), ("L24", 100)], false⟩ =
      Cohort.growing := by
    apply cohortOf_eq_growing.2
    have h1 : ltmGet ⟨"C", [("L25", 150), ("L24", 100)], false⟩ "L25" = 150 := by decide
    have h2 : ltmGet ⟨"C", [("L25", 150), ("L24", 100)], false⟩ "L24" = 100 := by decide
    refine ⟨by decide, by decide, ?_, ?_⟩ <;>
      · rw [h1, h2]
        norm_num
  have hD : cohortOf "L25" "L24" ⟨"D", [("L25", 50), ("L24", 0)], false⟩ = Cohort.new :=
    cohortOf_eq_new.2 ⟨by decide, by decide, by decide⟩
  refine (revenue_bridge_reconciles _ "L25" "L24" ?_ ?_).1
  · intro c hcm
    fin_cases hcm
    · rw [hA]
      decide
    · rw [hB]
      decide
    · rw [hC]
      decide
    · rw [hD]
      decide
  · intro c hcm
    fin_cases hcm
    · intro hx
      decide
    · intro hx
      rw [hB] at hx
      exact absurd hx (by decide)
    · intro hx
      rw [hC] at hx
      exact absurd hx (by decide)
    · intro hx
      rw [hD] at hx
      exact absurd hx (by decide)

/-! ### Claim C5: the material-movement (threshold) classification -/

theorem si_churned_mem {cs : List SICustomer} {c : SICustomer} :
    c ∈ (analyze_sales_intelligence cs).churned ↔
      c ∈ cs ∧ (c.ltm_prev > 50000 ∧ c.ltm_now = 0) := by
  show c ∈ (cs.filter (fun c => decide (c.ltm_prev > 50000 ∧ c.ltm_now = 0))).mergeSort
    (fun a b => decide (b.ltm_prev ≤ a.ltm_prev)) ↔ _
  rw [List.mem_mergeSort, List.mem_filter]
  simp

theorem si_declining_mem {cs : List SICustomer} {c : SICustomer} :
    c ∈ (analyze_sales_intelligence cs).declining ↔
      c ∈ cs ∧ (c.ltm_prev > c.ltm_now ∧ c.ltm_now > 0 ∧ c.change < -20000) := by
  show c ∈ (cs.filter
      (fun c => decide (c.ltm_prev > c.ltm_now ∧ c.ltm_now > 0 ∧ c.change < -20000))).mergeSort
    (fun a b => decide (a.change ≤ b.change)) ↔ _
  rw [List.mem_mergeSort, List.mem_filter]
  simp

theorem si_growing_mem {cs : List SICustomer} {c : SICustomer} :
    c ∈ (analyze_sales_intelligence cs).growing ↔ c ∈ cs ∧ c.change > 20000 := by
  show c ∈ (cs.filter (fun c => decide (c.change > 20000))).mergeSort
    (fun a b => decide (b.change ≤ a.change)) ↔ _
  rw [List.mem_mergeSort, List.mem_filter]
  simp

theorem si_new_mem {cs : List SICustomer} {c : SICustomer} :
    c ∈ (analyze_sales_intelligence cs).new_customers ↔
      c ∈ cs ∧ (c.ltm_prev = 0 ∧ c.ltm_now > 10000) := by
  show c ∈ (cs.filter (fun c => decide (c.ltm_prev = 0 ∧ c.ltm_now > 10000))).mergeSort
    (fun a b => decide (b.ltm_now ≤ a.ltm_now)) ↔ _
  rw [List.mem_mergeSort, List.mem_filter]
  simp

/-- C5 counterexample: a customer with prev = 0 and curr = 30000 — above the
New threshold — lands in BOTH the new-customer bucket and the growing bucket
of `analyze_sales_intelligence`: the Growing filter is `change > 20000` with
no not-churned/not-new condition, so the threshold buckets are not mutually
exclusive and such a customer IS also counted as Growing. -/
theorem growing_overlaps_new_cex :
    (analyze_sales_intelligence [⟨"A", 30000, 0, 30000⟩]).new_customers =
      [⟨"A", 30000, 0, 30000⟩] ∧
    (analyze_sales_intelligence [⟨"A", 30000, 0, 30000⟩]).growing =
      [⟨"A", 30000, 0, 30000⟩] := by
  constructor <;> norm_num [analyze_sales_intelligence, List.filter_cons]

/-- C5 (amended): the Churned, Declining and New buckets of the threshold
variant do satisfy the base membership conditions with the thresholds
layered on top, and they are pairwise disjoint and disjoint from Growing —
except that Growing, whose filter is just `change > 20000` without the base
rule's not-churned/not-new condition, overlaps New exactly on the customers
with prev = 0 and curr > 20,000; such a customer is counted both as New and
as Growing. -/
theorem sales_intelligence_thresholds :
    ∀ customers : List SICustomer,
      (∀ c ∈ customers, c.change = c.ltm_now - c.ltm_prev) →
      (∀ c ∈ (analyze_sales_intelligence customers).churned,
        (c.ltm_prev > 0 ∧ c.ltm_now = 0) ∧ c.ltm_prev > 50000) ∧
      (∀ c ∈ (analyze_sales_intelligence customers).declining,
        (¬(c.ltm_prev > 0 ∧ c.ltm_now = 0) ∧ ¬(c.ltm_prev = 0 ∧ c.ltm_now > 0) ∧
          c.ltm_now - c.ltm_prev < 0) ∧ |c.change| > 20000) ∧
      (∀ c ∈ (analyze_sales_intelligence customers).new_customers,
        (c.ltm_prev = 0 ∧ c.ltm_now > 0) ∧ c.ltm_now > 10000) ∧
      (∀ c ∈ (analyze_sales_intelligence customers).growing, c.change > 20000) ∧
      (∀ c : SICustomer, ¬(c ∈ (analyze_sales_intelligence customers).churned ∧
        c ∈ (analyze_sales_intelligence customers).declining)) ∧
      (∀ c : SICustomer, ¬(c ∈ (analyze_sales_intelligence customers).churned ∧
        c ∈ (analyze_sales_intelligence customers).new_customers)) ∧
      (∀ c : SICustomer, ¬(c ∈ (analyze_sales_intelligence customers).declining ∧
        c ∈ (analyze_sales_intelligence customers).new_customers)) ∧
      (∀ c : SICustomer, ¬(c ∈ (analyze_sales_intelligence customers).growing ∧
        c ∈ (analyze_sales_intelligence customers).churned)) ∧
      (∀ c : SICustomer, ¬(c ∈ (analyze_sales_intelligence customers).growing ∧
        c ∈ (analyze_sales_intelligence customers).declining)) ∧
      (∀ c : SICustomer, (c ∈ (analyze_sales_intelligence customers).growing ∧
          c ∈ (analyze_sales_intelligence customers).new_customers) ↔
        (c ∈ customers ∧ c.ltm_prev = 0 ∧ c.ltm_now > 20000)) := by
  intro customers hchg
  refine ⟨?_, ?_, ?_, ?_, ?_, ?_, ?_, ?_, ?_, ?_⟩
  · intro c hc
    obtain ⟨-, hp, hn⟩ := si_churned_mem.1 hc
    exact ⟨⟨by linarith, hn⟩, hp⟩
  · intro c hc
    obtain ⟨hm, hp, hn, hch⟩ := si_declining_mem.1 hc
    have habs : -c.change ≤ |c.change| := neg_le_abs _
    refine ⟨⟨fun hx => by linarith [hx.2], fun hx => by linarith [hx.1], by linarith⟩, ?_⟩
    linarith
  · intro c hc
    obtain ⟨-, hp, hn⟩ := si_new_mem.1 hc
    exact ⟨⟨hp, by linarith⟩, hn⟩
  · intro c hc
    exact (si_growing_mem.1 hc).2
  · rintro c ⟨h1, h2⟩
    obtain ⟨-, -, hn⟩ := si_churned_mem.1 h1
    obtain ⟨-, -, hn', -⟩ := si_declining_mem.1 h2
    linarith
  · rintro c ⟨h1, h2⟩
    obtain ⟨-, hp, -⟩ := si_churned_mem.1 h1
    obtain ⟨-, hp', -⟩ := si_new_mem.1 h2
    linarith
  · rintro c ⟨h1, h2⟩
    obtain ⟨-, hp, hn, -⟩ := si_declining_mem.1 h1
    obtain ⟨-, hp', -⟩ := si_new_mem.1 h2
    linarith
  · rintro c ⟨h1, h2⟩
    obtain ⟨hm, hch⟩ := si_growing_mem.1 h1
    obtain ⟨-, hp, hn⟩ := si_churned_mem.1 h2
    have := hchg c hm
    linarith
  · rintro c ⟨h1, h2⟩
    obtain ⟨-, hch⟩ := si_growing_mem.1 h1
    obtain ⟨-, -, -, hch'⟩ := si_declining_mem.1 h2
    linarith
  · intro c
    constructor
    · rintro ⟨h1, h2⟩
      obtain ⟨hm, hch⟩ := si_growing_mem.1 h1
      obtain ⟨-, hp, hn⟩ := si_new_mem.1 h2
      have := hchg c hm
      exact ⟨hm, hp, by linarith⟩
    · rintro ⟨hm, hp, hn⟩
      have := hchg c hm
      refine ⟨si_growing_mem.2 ⟨hm, by linarith⟩, si_new_mem.2 ⟨hm, hp, by linarith⟩⟩

/-- C5 witness: instantiating the Growing/New overlap characterisation at the
concrete prev = 0, curr = 30000 customer. -/
theorem sales_intelligence_thresholds_witness :
    ((⟨"A", 30000, 0, 30000⟩ : SICustomer) ∈
        (analyze_sales_intelligence [⟨"A", 30000, 0, 30000⟩]).growing ∧
      (⟨"A", 30000, 0, 30000⟩ : SICustomer) ∈
        (analyze_sales_intelligence [⟨"A", 30000, 0, 30000⟩]).new_customers) ↔
      ((⟨"A", 30000, 0, 30000⟩ : SICustomer) ∈ [(⟨"A", 30000, 0, 30000⟩ : SICustomer)] ∧
        (⟨"A", 30000, 0, 30000⟩ : SICustomer).ltm_prev = 0 ∧
        (⟨"A", 30000, 0, 30000⟩ : SICustomer).ltm_now > 20000) :=
  (sales_intelligence_thresholds [⟨"A", 30000, 0, 30000⟩]
      (by
        intro c hc
        fin_cases hc
        norm_num)).2.2.2.2.2.2.2.2.2 _

end Hyab

